import Mathlib

/-
Verification of the picklescan scanner (src/picklescan/scanner.py) against its
specification. The pickle byte-stream reader (pickletools.genops) is external
to the repository; a byte stream is therefore abstracted as the sequence of
outcomes of successive genops runs (`Segment` below). Everything in
scanner.py that the claims touch is embedded directly: the safety tables, the
classifier `_build_scan_result_from_raw_globals`, the global extractor
`_list_globals` (memo table, STACK_GLOBAL backward scan, multi-pickle loop),
`scan_pickle_bytes`, `ScanResult.merge`, and the legacy branch of
`scan_pytorch`. Python exceptions are modelled with `Except PyErr`.
-/

set_option maxRecDepth 4000

namespace Picklescan

/-- A Python value as it occurs as a pickletools opcode argument or inside the
memo table: a string, an int, or None. -/
inductive PyVal where
  | str (s : String)
  | int (i : Int)
  | pynone
deriving DecidableEq

/-- One disassembled pickle operation: `op[0].name` and `op[1]` of the source
(the byte position is never read by scanner.py and is omitted). -/
structure Op where
  name : String
  value : PyVal
deriving DecidableEq

/-- Python exceptions that scanner.py can raise or catch. `genOps` is the
repository's own GenOpsError (message, optional partial globals); the others
are builtin Python exceptions raised by the extractor or the classifier. -/
inductive PyErr where
  | genOps (msg : String) (globals : Option (List (List PyVal)))
  | valueError
  | keyError
  | typeError
  | attributeError
  | indexError
deriving DecidableEq

deriving instance DecidableEq for Except

/-- SafetyLevel of scanner.py. -/
inductive SafetyLevel where
  | Innocuous
  | Suspicious
  | Dangerous
deriving DecidableEq

/-- The Global dataclass: module, name and a safety level. The module and
name fields hold whatever values the extractor recovered (they are strings
for well-formed streams but Python does not enforce that). -/
structure Global where
  module : PyVal
  name : PyVal
  safety : SafetyLevel
deriving DecidableEq

/-- The ScanResult dataclass. -/
structure ScanResult where
  globals : List Global
  scanned_files : Nat
  issues_count : Nat
  infected_files : Nat
  scan_err : Bool
deriving DecidableEq

/-- ScanResult.merge as a value-level function: the state of the receiver
after `self.merge(sr)` in the source. -/
def ScanResult.merge (a sr : ScanResult) : ScanResult :=
  { globals := a.globals ++ sr.globals
    scanned_files := a.scanned_files + sr.scanned_files
    issues_count := a.issues_count + sr.issues_count
    infected_files := a.infected_files + sr.infected_files
    scan_err := a.scan_err || sr.scan_err }

/-- ScanResult([]) of the source: an empty result with all counters zero. -/
def emptyScanResult : ScanResult := ⟨[], 0, 0, 0, false⟩

/-- Whether `nee` is an initial run of `hay` (on character lists). -/
def charsStart : List Char → List Char → Bool
  | [], _ => true
  | _ :: _, [] => false
  | a :: as, b :: bs => a = b && charsStart as bs

/-- Whether `nee` occurs contiguously in `hay` (on character lists). -/
def charsSub (nee : List Char) : List Char → Bool
  | [] => nee.isEmpty
  | b :: bs => charsStart nee (b :: bs) || charsSub nee bs

/-- Python's `nee in hay` on strings: substring containment (the empty string
is contained in every string). -/
def strContains (hay nee : String) : Bool :=
  charsSub nee.toList hay.toList

/-- A value of the `_safe_globals` / `_unsafe_globals` dicts: either a Python
string (the wildcard `"*"`, or a single name such as `"partial"`) or a Python
set of names. -/
inductive TblVal where
  | str (s : String)
  | nameSet (l : List String)
deriving DecidableEq

/-- Association-list lookup, as `dict.get` restricted to the string keys the
two tables use. -/
def tblGet {α : Type} : List (String × α) → String → Option α
  | [], _ => Option.none
  | (k, v) :: rest, m => if k = m then some v else tblGet rest m

/-- `dict.get(g.module)` where `g.module` may be any Python value: a non-string
key matches no entry of a string-keyed table. -/
def lookupTbl (tbl : List (String × TblVal)) : PyVal → Option TblVal
  | PyVal.str s => tblGet tbl s
  | _ => Option.none

/-- The `_safe_globals` table of scanner.py, in source order. -/
def _safe_globals : List (String × TblVal) := [
  ("collections", TblVal.nameSet ["OrderedDict"]),
  ("torch", TblVal.nameSet ["LongStorage", "FloatStorage", "HalfStorage",
    "QUInt2x4Storage", "QUInt4x2Storage", "QInt32Storage", "QInt8Storage",
    "QUInt8Storage", "ComplexFloatStorage", "ComplexDoubleStorage",
    "DoubleStorage", "BFloat16Storage", "BoolStorage", "CharStorage",
    "ShortStorage", "IntStorage", "ByteStorage"]),
  ("numpy", TblVal.nameSet ["dtype", "ndarray"]),
  ("numpy._core.multiarray", TblVal.nameSet ["_reconstruct"]),
  ("numpy.core.multiarray", TblVal.nameSet ["_reconstruct"]),
  ("torch._utils", TblVal.nameSet ["_rebuild_tensor_v2"])]

/-- The `_unsafe_globals` table of scanner.py, in source order. Note that five
entries are single Python strings, not sets. -/
def _unsafe_globals : List (String × TblVal) := [
  ("__builtin__", TblVal.nameSet ["eval", "compile", "getattr", "apply",
    "exec", "open", "breakpoint"]),
  ("builtins", TblVal.nameSet ["eval", "compile", "getattr", "apply",
    "exec", "open", "breakpoint"]),
  ("aiohttp.client", TblVal.str "*"),
  ("asyncio", TblVal.str "*"),
  ("bdb", TblVal.str "*"),
  ("commands", TblVal.str "*"),
  ("functools", TblVal.str "partial"),
  ("httplib", TblVal.str "*"),
  ("numpy.testing._private.utils", TblVal.str "*"),
  ("nt", TblVal.str "*"),
  ("posix", TblVal.str "*"),
  ("operator", TblVal.str "attrgetter"),
  ("os", TblVal.str "*"),
  ("requests.api", TblVal.str "*"),
  ("runpy", TblVal.str "*"),
  ("shutil", TblVal.str "*"),
  ("socket", TblVal.str "*"),
  ("ssl", TblVal.str "*"),
  ("subprocess", TblVal.str "*"),
  ("sys", TblVal.str "*"),
  ("pdb", TblVal.str "*"),
  ("pickle", TblVal.str "*"),
  ("_pickle", TblVal.str "*"),
  ("pip", TblVal.str "*"),
  ("pydoc", TblVal.str "pipepager"),
  ("timeit", TblVal.str "*"),
  ("torch._inductor.codecache", TblVal.str "compile_file"),
  ("torch.serialization", TblVal.str "load"),
  ("venv", TblVal.str "*"),
  ("webbrowser", TblVal.str "*")]

/-- Python `"unknown" in v`: substring test when `v` is a string, TypeError
otherwise. -/
def pyUnknownIn : PyVal → Except PyErr Bool
  | PyVal.str s => Except.ok (strContains s "unknown")
  | _ => Except.error PyErr.typeError

/-- Python `v in f` where `f` is a table value: substring containment when `f`
is a string (TypeError when `v` is not a string), set membership when `f` is a
set (false, without error, for a non-string `v`). -/
def pyInTblVal (v : PyVal) : TblVal → Except PyErr Bool
  | TblVal.str s =>
    match v with
    | PyVal.str n => Except.ok (strContains s n)
    | _ => Except.error PyErr.typeError
  | TblVal.nameSet l =>
    match v with
    | PyVal.str n => Except.ok (l.contains n)
    | _ => Except.ok false

/-- The branch on `safe_filter` at the end of the classifier loop: Innocuous
when the module's safe entry is the wildcard or contains the name, else
Suspicious. -/
def classifySafeStep (name : PyVal) (sf : Option TblVal) :
    Except PyErr (SafetyLevel × Bool) :=
  match sf with
  | some f =>
    if f = TblVal.str "*" then Except.ok (SafetyLevel.Innocuous, false)
    else
      match pyInTblVal name f with
      | Except.error e => Except.error e
      | Except.ok true => Except.ok (SafetyLevel.Innocuous, false)
      | Except.ok false => Except.ok (SafetyLevel.Suspicious, false)
  | Option.none => Except.ok (SafetyLevel.Suspicious, false)

/-- The body of the loop of `_build_scan_result_from_raw_globals` for one
`(module, name)` pair: the assigned SafetyLevel, and whether it counted as an
issue. Rule order as in the source: the "unknown" substring test (short
circuited across `or`), then the unsafe filter, then the safe filter. -/
def classifyImport (module name : PyVal) : Except PyErr (SafetyLevel × Bool) :=
  let sf := lookupTbl _safe_globals module
  let uf := lookupTbl _unsafe_globals module
  match pyUnknownIn module with
  | Except.error e => Except.error e
  | Except.ok true => Except.ok (SafetyLevel.Dangerous, true)
  | Except.ok false =>
    match pyUnknownIn name with
    | Except.error e => Except.error e
    | Except.ok true => Except.ok (SafetyLevel.Dangerous, true)
    | Except.ok false =>
      match uf with
      | some f =>
        if f = TblVal.str "*" then Except.ok (SafetyLevel.Dangerous, true)
        else
          match pyInTblVal name f with
          | Except.error e => Except.error e
          | Except.ok true => Except.ok (SafetyLevel.Dangerous, true)
          | Except.ok false => classifySafeStep name sf
      | Option.none => classifySafeStep name sf

/-- `rg[i]` on a raw-globals tuple: IndexError when the tuple is too short. -/
def pyIndex (l : List PyVal) (i : Nat) : Except PyErr PyVal :=
  match l.get? i with
  | some v => Except.ok v
  | Option.none => Except.error PyErr.indexError

/-- The loop of `_build_scan_result_from_raw_globals`: classify each raw
global, appending a `Global` and counting issues. -/
def buildGo : List (List PyVal) → List Global → Nat →
    Except PyErr (List Global × Nat)
  | [], gl, issues => Except.ok (gl, issues)
  | rg :: rest, gl, issues =>
    match pyIndex rg 0 with
    | Except.error e => Except.error e
    | Except.ok m =>
      match pyIndex rg 1 with
      | Except.error e => Except.error e
      | Except.ok n =>
        match classifyImport m n with
        | Except.error e => Except.error e
        | Except.ok (lvl, iss) =>
          buildGo rest (gl ++ [⟨m, n, lvl⟩]) (issues + (if iss then 1 else 0))

/-- `_build_scan_result_from_raw_globals`: classify the raw globals and return
`ScanResult(globals, 1, issues_count, 1 if issues_count > 0 else 0, scan_err)`. -/
def buildScanResult (raw : List (List PyVal)) (scan_err : Bool) :
    Except PyErr ScanResult :=
  match buildGo raw [] 0 with
  | Except.error e => Except.error e
  | Except.ok (gl, issues) =>
    Except.ok ⟨gl, 1, issues, if issues > 0 then 1 else 0, scan_err⟩

/-- The memo dict of `_list_globals`: keys are the Python values used as dict
keys (`len(memo)` for MEMOIZE, the PUT argument, `int(arg)` for GET), values
are the argument of the op preceding the memoization op. Insertion order is
kept, as in a Python dict; only `len`, lookup and assignment are used. -/
abbrev Memo := List (PyVal × PyVal)

/-- Dict assignment `memo[k] = v`: replace in place when the key exists,
append otherwise. -/
def memoSet : Memo → PyVal → PyVal → Memo
  | [], k, v => [(k, v)]
  | (k', v') :: rest, k, v =>
    if k' = k then (k', v) :: rest else (k', v') :: memoSet rest k v

/-- Dict lookup `memo[k]`: KeyError when the key is absent. -/
def memoGet : Memo → PyVal → Except PyErr PyVal
  | [], _ => Except.error PyErr.keyError
  | (k', v) :: rest, k => if k' = k then Except.ok v else memoGet rest k

/-- `len(memo)` as a Python int. -/
def memoLen (m : Memo) : PyVal := PyVal.int (Int.ofNat m.length)

/-- The globals set of `_list_globals`: a set of Python tuples, modelled as a
duplicate-free list in insertion order. Each tuple is a `List PyVal` (the
GLOBAL/INST split can in principle yield a 1-tuple, STACK_GLOBAL yields
pairs). -/
abbrev GlobSet := List (List PyVal)

/-- `set.add`: append the element when it is not already present. -/
def setAdd (g : GlobSet) (x : List PyVal) : GlobSet :=
  if x ∈ g then g else g ++ [x]

/-- Python `int(v)` on an opcode argument. The genops reader always yields
ints for the GET/BINGET/LONG_BINGET arguments this is applied to; any other
value is modelled as a TypeError. -/
def pyIntOf : PyVal → Except PyErr PyVal
  | PyVal.int k => Except.ok (PyVal.int k)
  | _ => Except.error PyErr.typeError

/-- The characters before and after the first space, when there is one. -/
def breakAtSpace : List Char → Option (List Char × List Char)
  | [] => Option.none
  | c :: rest =>
    if c = ' ' then some ([], rest)
    else
      match breakAtSpace rest with
      | Option.none => Option.none
      | some (a, b) => some (c :: a, b)

/-- `s.split(" ", 1)`: split at the first space only (a 1-element list when
there is no space, as in Python). -/
def splitSpace1 (s : String) : List String :=
  match breakAtSpace s.toList with
  | Option.none => [s]
  | some (a, b) => [String.mk a, String.mk b]

/-- Element `ops[i]` (the source only indexes in bounds; out of range is given
a harmless dummy op). -/
def opAt (ops : List Op) (i : Nat) : Op :=
  ops.getD i ⟨"", PyVal.pynone⟩

/-- The memoization opcodes skipped by the STACK_GLOBAL backward scan. -/
def memoOpNames : List String := ["MEMOIZE", "PUT", "BINPUT", "LONG_BINPUT"]

/-- The memo-reference opcodes resolved through the memo table. -/
def getOpNames : List String := ["GET", "BINGET", "LONG_BINGET"]

/-- The literal string opcodes read directly. -/
def strOpNames : List String :=
  ["SHORT_BINUNICODE", "UNICODE", "BINUNICODE", "BINUNICODE8"]

/-- The `for offset in range(1, n)` loop of the STACK_GLOBAL case: walk the
remaining offsets, skip memoization ops, resolve memo references, read string
literals, substitute "unknown" for any other opcode, and stop as soon as two
values are collected. -/
def collectGo (ops : List Op) (memo : Memo) (n : Nat) :
    List Nat → List PyVal → Except PyErr (List PyVal)
  | [], values => Except.ok values
  | off :: rest, values =>
    if (opAt ops (n - off)).name ∈ memoOpNames then
      collectGo ops memo n rest values
    else
      match
        (if (opAt ops (n - off)).name ∈ getOpNames then
          match pyIntOf (opAt ops (n - off)).value with
          | Except.error e => Except.error e
          | Except.ok k => memoGet memo k
        else if ¬ (opAt ops (n - off)).name ∈ strOpNames then
          Except.ok (PyVal.str "unknown")
        else Except.ok (opAt ops (n - off)).value) with
      | Except.error e => Except.error e
      | Except.ok v =>
        if (values ++ [v]).length = 2 then Except.ok (values ++ [v])
        else collectGo ops memo n rest (values ++ [v])

/-- The operand values recovered for a STACK_GLOBAL at index `n`: the loop
above over offsets `1, ..., n-1`. -/
def collectValues (ops : List Op) (memo : Memo) (n : Nat) :
    Except PyErr (List PyVal) :=
  collectGo ops memo n (List.range' 1 (n - 1)) []

/-- The body of the `for n in range(len(ops))` loop of `_list_globals`:
dispatch on the opcode name at index `n`, updating the memo table and the
globals set, in source order (MEMOIZE, then PUT/BINPUT/LONG_BINPUT, then
GLOBAL/INST, then STACK_GLOBAL). -/
def processOp (ops : List Op) (n : Nat) (memo : Memo) (g : GlobSet) :
    Except PyErr (Memo × GlobSet) :=
  if (opAt ops n).name = "MEMOIZE" ∧ n > 0 then
    Except.ok (memoSet memo (memoLen memo) (opAt ops (n - 1)).value, g)
  else if (opAt ops n).name ∈ ["PUT", "BINPUT", "LONG_BINPUT"] ∧ n > 0 then
    Except.ok (memoSet memo (opAt ops n).value (opAt ops (n - 1)).value, g)
  else if (opAt ops n).name ∈ ["GLOBAL", "INST"] then
    match (opAt ops n).value with
    | PyVal.str s =>
      Except.ok (memo, setAdd g ((splitSpace1 s).map PyVal.str))
    | _ => Except.error PyErr.attributeError
  else if (opAt ops n).name = "STACK_GLOBAL" then
    match collectValues ops memo n with
    | Except.error e => Except.error e
    | Except.ok values =>
      if values.length = 2 then
        Except.ok (memo, setAdd g [values.getD 1 PyVal.pynone,
                                   values.getD 0 PyVal.pynone])
      else Except.error PyErr.valueError
  else Except.ok (memo, g)

/-- Run `processOp` over a list of indices (instantiated with
`List.range ops.length`, as `for n in range(len(ops))`). -/
def runOps (ops : List Op) : List Nat → Memo → GlobSet →
    Except PyErr (Memo × GlobSet)
  | [], memo, g => Except.ok (memo, g)
  | n :: rest, memo, g =>
    match processOp ops n memo g with
    | Except.error e => Except.error e
    | Except.ok (memo', g') => runOps ops rest memo' g'

/-- Process one whole op list, as one iteration of the while loop does. -/
def runAll (ops : List Op) (memo : Memo) (g : GlobSet) :
    Except PyErr (Memo × GlobSet) :=
  runOps ops (List.range ops.length) memo g

/-- One genops run over the byte stream: the ops it yielded, and the message
of the exception that ended it, if parsing failed before a STOP. A byte
stream is abstracted as the list of outcomes of the successive genops runs
`_list_globals` performs on it; the empty stream is the single segment
`⟨[], some "pickle exhausted before seeing STOP"⟩` (genops raises on it at
once). After a segment with `parseErr = none`, the one-byte peek of the
source finds more data exactly when further segments follow. -/
structure Segment where
  ops : List Op
  parseErr : Option String
deriving DecidableEq

/-- The while loop of `_list_globals`, returning the extracted globals (or
the raised exception) together with the not-yet-consumed part of the stream.
With `multiple_pickles = False` the loop breaks after one iteration — before
the GenOpsError raise, so a parse error is swallowed there. With
`multiple_pickles = True` a parse error raises GenOpsError carrying the
globals found so far (None when none), and the loop otherwise continues while
the peek finds more data. -/
def listGlobalsAux (multi : Bool) : List Segment → Memo → GlobSet →
    Except PyErr GlobSet × List Segment
  | [], _, g => (Except.ok g, [])
  | seg :: rest, memo, g =>
    match runAll seg.ops memo g with
    | Except.error e => (Except.error e, rest)
    | Except.ok (memo', g') =>
      if multi = false then (Except.ok g', rest)
      else
        match seg.parseErr with
        | some msg =>
          (Except.error (PyErr.genOps msg
            (if g'.isEmpty then Option.none else some g')), rest)
        | Option.none =>
          match rest with
          | [] => (Except.ok g', [])
          | _ :: _ => listGlobalsAux multi rest memo' g'

/-- `_list_globals(data, multiple_pickles)`: globals set from an initially
empty memo table and globals set, plus the remaining stream. -/
def listGlobalsS (segs : List Segment) (multi : Bool) :
    Except PyErr GlobSet × List Segment :=
  listGlobalsAux multi segs [] []

/-- `scan_pickle_bytes(data, file_id, multiple_pickles)`: recover a
GenOpsError into a ScanResult with `scan_err = true` (classifying the partial
globals when there are any); any other exception propagates. -/
def scanPickleBytesS (segs : List Segment) (multi : Bool) :
    Except PyErr ScanResult × List Segment :=
  match listGlobalsS segs multi with
  | (Except.error (PyErr.genOps _ (some g)), rest) => (buildScanResult g true, rest)
  | (Except.error (PyErr.genOps _ Option.none), rest) =>
    (Except.ok ⟨[], 0, 0, 0, true⟩, rest)
  | (Except.error e, rest) => (Except.error e, rest)
  | (Except.ok g, rest) => (buildScanResult g false, rest)

/-- The `for _ in range(5)` loop of the legacy branch of `scan_pytorch`:
merge the results of up-to-five single-pickle scans of the stream; an
exception escaping `scan_pickle_bytes` propagates. -/
def legacyLoop : Nat → ScanResult → List Segment → Except PyErr ScanResult
  | 0, acc, _ => Except.ok acc
  | k + 1, acc, segs =>
    match scanPickleBytesS segs false with
    | (Except.error e, _) => Except.error e
    | (Except.ok r, rest) => legacyLoop k (acc.merge r) rest

/-- The legacy (non-zip, non-7z) branch of `scan_pytorch` after its framing
magic check: five single-pickle scans merged into `ScanResult([])`, then
`scan_result.scanned_files = 1`. -/
def scanPytorchLegacy (segs : List Segment) : Except PyErr ScanResult :=
  match legacyLoop 5 emptyScanResult segs with
  | Except.error e => Except.error e
  | Except.ok r => Except.ok { r with scanned_files := 1 }

/-- The empty byte stream as a segment list: genops raises at once. -/
def emptyStream : List Segment :=
  [⟨[], some "pickle exhausted before seeing STOP"⟩]

/-- A value of the spec's classifier tables (§3, §6): "either the sentinel `*`
(all names in module …) or a finite set of names". The five one-name UNSAFE
rows are kept apart as `single` so the two readings of rule 2 — membership in
the one-element set (the claim) and substring containment (the code) — can
both be stated over the same table. -/
inductive SpecEntry where
  | wildcard
  | names (l : List String)
  | single (s : String)
deriving DecidableEq

/-- The spec's SAFE table (§6), keyed by module. -/
def SPEC_SAFE : List (String × SpecEntry) := [
  ("collections", SpecEntry.names ["OrderedDict"]),
  ("torch", SpecEntry.names ["LongStorage", "FloatStorage", "HalfStorage",
    "QUInt2x4Storage", "QUInt4x2Storage", "QInt32Storage", "QInt8Storage",
    "QUInt8Storage", "ComplexFloatStorage", "ComplexDoubleStorage",
    "DoubleStorage", "BFloat16Storage", "BoolStorage", "CharStorage",
    "ShortStorage", "IntStorage", "ByteStorage"]),
  ("numpy", SpecEntry.names ["dtype", "ndarray"]),
  ("numpy._core.multiarray", SpecEntry.names ["_reconstruct"]),
  ("numpy.core.multiarray", SpecEntry.names ["_reconstruct"]),
  ("torch._utils", SpecEntry.names ["_rebuild_tensor_v2"])]

/-- The spec's UNSAFE table (§6), keyed by module. -/
def SPEC_UNSAFE : List (String × SpecEntry) := [
  ("__builtin__", SpecEntry.names ["eval", "compile", "getattr", "apply",
    "exec", "open", "breakpoint"]),
  ("builtins", SpecEntry.names ["eval", "compile", "getattr", "apply",
    "exec", "open", "breakpoint"]),
  ("aiohttp.client", SpecEntry.wildcard),
  ("asyncio", SpecEntry.wildcard),
  ("bdb", SpecEntry.wildcard),
  ("commands", SpecEntry.wildcard),
  ("functools", SpecEntry.single "partial"),
  ("httplib", SpecEntry.wildcard),
  ("numpy.testing._private.utils", SpecEntry.wildcard),
  ("nt", SpecEntry.wildcard),
  ("posix", SpecEntry.wildcard),
  ("operator", SpecEntry.single "attrgetter"),
  ("os", SpecEntry.wildcard),
  ("requests.api", SpecEntry.wildcard),
  ("runpy", SpecEntry.wildcard),
  ("shutil", SpecEntry.wildcard),
  ("socket", SpecEntry.wildcard),
  ("ssl", SpecEntry.wildcard),
  ("subprocess", SpecEntry.wildcard),
  ("sys", SpecEntry.wildcard),
  ("pdb", SpecEntry.wildcard),
  ("pickle", SpecEntry.wildcard),
  ("_pickle", SpecEntry.wildcard),
  ("pip", SpecEntry.wildcard),
  ("pydoc", SpecEntry.single "pipepager"),
  ("timeit", SpecEntry.wildcard),
  ("torch._inductor.codecache", SpecEntry.single "compile_file"),
  ("torch.serialization", SpecEntry.single "load"),
  ("venv", SpecEntry.wildcard),
  ("webbrowser", SpecEntry.wildcard)]

/-- Rule 2/3 test as the claim reads it: `T[m] == *` or `n ∈ T[m]`, with a
one-name row being the one-element set of that name. -/
def specEntryAllowsClaim (e : SpecEntry) (n : String) : Bool :=
  match e with
  | SpecEntry.wildcard => true
  | SpecEntry.names l => l.contains n
  | SpecEntry.single s => n = s

/-- Rule 2/3 test as amended: for a one-name row the test is Python substring
containment `n in T[m]`, not set membership. -/
def specEntryAllowsAmended (e : SpecEntry) (n : String) : Bool :=
  match e with
  | SpecEntry.wildcard => true
  | SpecEntry.names l => l.contains n
  | SpecEntry.single s => strContains s n

/-- Rules 3–4 of the spec classifier (§4.3): Innocuous when SAFE[m] exists and
allows n, otherwise Suspicious (no issue either way). -/
def specSafeStep (al : SpecEntry → String → Bool) (m n : String) :
    SafetyLevel × Bool :=
  match tblGet SPEC_SAFE m with
  | some e => if al e n then (SafetyLevel.Innocuous, false)
              else (SafetyLevel.Suspicious, false)
  | Option.none => (SafetyLevel.Suspicious, false)

/-- The spec classifier (§4.3), parameterised by the reading of the rule 2/3
test: rule 1 the "unknown" substring test, rule 2 the UNSAFE table, rules 3–4
the SAFE table. Returns the SafetyLevel and whether the pair counts as an
issue. -/
def specClassifyWith (al : SpecEntry → String → Bool) (m n : String) :
    SafetyLevel × Bool :=
  if strContains m "unknown" || strContains n "unknown" then
    (SafetyLevel.Dangerous, true)
  else
    match tblGet SPEC_UNSAFE m with
    | some e => if al e n then (SafetyLevel.Dangerous, true)
                else specSafeStep al m n
    | Option.none => specSafeStep al m n

/-- The spec table entry a source table value denotes: `"*"` is the wildcard,
any other single string a one-name row, a set a finite set of names. -/
def tblToSpec : TblVal → SpecEntry
  | TblVal.str s => if s = "*" then SpecEntry.wildcard else SpecEntry.single s
  | TblVal.nameSet l => SpecEntry.names l

lemma tblGet_map {α β : Type} (f : α → β) :
    ∀ (l : List (String × α)) (m : String),
      tblGet (l.map (fun p => (p.1, f p.2))) m = Option.map f (tblGet l m)
  | [], _ => rfl
  | (k, v) :: rest, m => by
    simp only [List.map, tblGet]
    split_ifs <;> simp [tblGet_map f rest m]

lemma spec_unsafe_tbl :
    SPEC_UNSAFE = _unsafe_globals.map (fun p => (p.1, tblToSpec p.2)) := by rfl

lemma spec_safe_tbl :
    SPEC_SAFE = _safe_globals.map (fun p => (p.1, tblToSpec p.2)) := by rfl

lemma spec_unsafe_eq (m : String) :
    tblGet SPEC_UNSAFE m = Option.map tblToSpec (tblGet _unsafe_globals m) := by
  rw [spec_unsafe_tbl, tblGet_map]

lemma spec_safe_eq (m : String) :
    tblGet SPEC_SAFE m = Option.map tblToSpec (tblGet _safe_globals m) := by
  rw [spec_safe_tbl, tblGet_map]

/-- The check the classifier's source performs on a table value, as a single
boolean: `f == "*" or n in f`. -/
def tblMatchB (f : TblVal) (n : String) : Bool :=
  if f = TblVal.str "*" then true
  else
    match f with
    | TblVal.str s => strContains s n
    | TblVal.nameSet l => l.contains n

lemma allowsAmended_toSpec (f : TblVal) (n : String) :
    specEntryAllowsAmended (tblToSpec f) n = tblMatchB f n := by
  cases f with
  | str s =>
    by_cases h : s = "*" <;>
      simp [tblToSpec, tblMatchB, specEntryAllowsAmended, h, TblVal.str.injEq]
  | nameSet l => simp [tblToSpec, tblMatchB, specEntryAllowsAmended]

lemma pyInTblVal_str (f : TblVal) (n : String) (h : ¬ f = TblVal.str "*") :
    pyInTblVal (PyVal.str n) f = Except.ok (tblMatchB f n) := by
  cases f with
  | str s => simp [pyInTblVal, tblMatchB, h]
  | nameSet l => simp [pyInTblVal, tblMatchB, h]

lemma lookupTbl_str (t : List (String × TblVal)) (m : String) :
    lookupTbl t (PyVal.str m) = tblGet t m := rfl

lemma classifySafeStep_str (m n : String) :
    classifySafeStep (PyVal.str n) (tblGet _safe_globals m) =
      Except.ok (specSafeStep specEntryAllowsAmended m n) := by
  simp only [classifySafeStep, specSafeStep, spec_safe_eq]
  cases h : tblGet _safe_globals m with
  | none => rfl
  | some f =>
    simp only [Option.map_some']
    rw [allowsAmended_toSpec]
    by_cases hstar : f = TblVal.str "*"
    · subst hstar
      simp [tblMatchB]
    · rw [if_neg hstar, pyInTblVal_str f n hstar]
      cases tblMatchB f n <;> simp

/-- C1 counterexample: the code classifies `functools.art` as Dangerous with
an issue (Python's `"art" in "partial"` is substring containment), while the
classifier rules as the claim states them — with `UNSAFE["functools"]` the
finite set `{"partial"}` — yield Suspicious with no issue. -/
theorem c1_counterexample :
    classifyImport (PyVal.str "functools") (PyVal.str "art") =
      Except.ok (SafetyLevel.Dangerous, true) ∧
    specClassifyWith specEntryAllowsClaim "functools" "art" =
      (SafetyLevel.Suspicious, false) := by
  constructor <;> rfl

/-- C1 (amended): for every pair of strings `(m, n)` the classifier assigns a
SafetyLevel by the spec's rules in order — "unknown" substring, then UNSAFE,
then SAFE, else Suspicious — where for the five single-name UNSAFE rows the
rule-2 test is Python substring containment of `n` in the row's name rather
than set membership. -/
theorem c1_classifier_follows_amended_rules (m n : String) :
    classifyImport (PyVal.str m) (PyVal.str n) =
      Except.ok (specClassifyWith specEntryAllowsAmended m n) := by
  simp only [classifyImport, specClassifyWith, pyUnknownIn, lookupTbl_str]
  by_cases h1 : strContains m "unknown"
  · simp [h1]
  · simp only [h1, Bool.false_or]
    by_cases h2 : strContains n "unknown"
    · simp [h2]
    · simp only [h2, if_false]
      rw [spec_unsafe_eq]
      cases hu : tblGet _unsafe_globals m with
      | none => exact classifySafeStep_str m n
      | some f =>
        simp only [Option.map_some']
        rw [allowsAmended_toSpec]
        by_cases hstar : f = TblVal.str "*"
        · subst hstar
          simp [tblMatchB]
        · rw [if_neg hstar, pyInTblVal_str f n hstar]
          cases hm : tblMatchB f n <;> simp [classifySafeStep_str m n]

/-- What one op contributes to the STACK_GLOBAL backward scan, as the spec
describes it: memoization opcodes are skipped, GET/BINGET/LONG_BINGET are
resolved through the memo table, the four string opcodes contribute their
literal argument, and any other opcode contributes the placeholder
`"unknown"`. -/
def resolveOperand (memo : Memo) (o : Op) : Except PyErr (Option PyVal) :=
  if o.name ∈ memoOpNames then Except.ok Option.none
  else if o.name ∈ getOpNames then
    match pyIntOf o.value with
    | Except.error e => Except.error e
    | Except.ok k =>
      match memoGet memo k with
      | Except.error e => Except.error e
      | Except.ok v => Except.ok (some v)
  else if o.name ∈ strOpNames then Except.ok (some o.value)
  else Except.ok (some (PyVal.str "unknown"))

/-- Walk a list of indices, collecting the operand each index resolves to,
and stop as soon as two values are collected. -/
def specGo (ops : List Op) (memo : Memo) :
    List Nat → List PyVal → Except PyErr (List PyVal)
  | [], vs => Except.ok vs
  | i :: rest, vs =>
    if 2 ≤ vs.length then Except.ok vs
    else
      match resolveOperand memo (opAt ops i) with
      | Except.error e => Except.error e
      | Except.ok Option.none => specGo ops memo rest vs
      | Except.ok (some v) => specGo ops memo rest (vs ++ [v])

/-- The spec's description of the STACK_GLOBAL operand reconstruction: scan
backwards from index `n` (indices `n-1` down to `1`), collecting up to two
operand values. -/
def specBackscan (ops : List Op) (memo : Memo) (n : Nat) :
    Except PyErr (List PyVal) :=
  specGo ops memo ((List.range' 1 (n - 1)).map (fun off => n - off)) []

lemma specGo_of_full (ops : List Op) (memo : Memo) :
    ∀ (l : List Nat) (vs : List PyVal), 2 ≤ vs.length →
      specGo ops memo l vs = Except.ok vs
  | [], _, _ => rfl
  | _ :: _, vs, h => by simp [specGo, h]

lemma resolveOperand_skip (memo : Memo) (o : Op)
    (h : o.name ∈ memoOpNames) :
    resolveOperand memo o = Except.ok Option.none := by
  simp [resolveOperand, h]

lemma collectGo_eq_specGo (ops : List Op) (memo : Memo) (n : Nat) :
    ∀ (offs : List Nat) (vs : List PyVal), vs.length < 2 →
      collectGo ops memo n offs vs =
        specGo ops memo (offs.map (fun off => n - off)) vs
  | [], _, _ => rfl
  | off :: rest, vs, h => by
    have hlt : ¬ 2 ≤ vs.length := by omega
    simp only [collectGo, List.map, specGo, if_neg hlt]
    by_cases hskip : (opAt ops (n - off)).name ∈ memoOpNames
    · rw [if_pos hskip, resolveOperand_skip memo _ hskip]
      exact collectGo_eq_specGo ops memo n rest vs h
    · rw [if_neg hskip]
      by_cases hget : (opAt ops (n - off)).name ∈ getOpNames
      · rw [if_pos hget]
        cases hpi : pyIntOf (opAt ops (n - off)).value with
        | error e =>
          rw [show resolveOperand memo (opAt ops (n - off)) = Except.error e by
            simp [resolveOperand, hskip, hget, hpi]]
        | ok k =>
          dsimp only
          cases hmg : memoGet memo k with
          | error e =>
            rw [show resolveOperand memo (opAt ops (n - off)) = Except.error e by
              simp [resolveOperand, hskip, hget, hpi, hmg]]
          | ok v =>
            rw [show resolveOperand memo (opAt ops (n - off)) =
                  Except.ok (some v) by
              simp [resolveOperand, hskip, hget, hpi, hmg]]
            dsimp only
            by_cases h2 : (vs ++ [v]).length = 2
            · rw [if_pos h2, specGo_of_full ops memo _ _ (le_of_eq h2.symm)]
            · rw [if_neg h2]
              exact collectGo_eq_specGo ops memo n rest (vs ++ [v])
                (by simp only [List.length_append, List.length_cons,
                      List.length_nil] at h2 ⊢; omega)
      · rw [if_neg hget]
        by_cases hstr : (opAt ops (n - off)).name ∈ strOpNames
        · rw [if_neg (by simp [hstr] :
              ¬ ¬ (opAt ops (n - off)).name ∈ strOpNames)]
          rw [show resolveOperand memo (opAt ops (n - off)) =
                Except.ok (some (opAt ops (n - off)).value) by
            simp [resolveOperand, hskip, hget, hstr]]
          dsimp only
          by_cases h2 : (vs ++ [(opAt ops (n - off)).value]).length = 2
          · rw [if_pos h2, specGo_of_full ops memo _ _ (le_of_eq h2.symm)]
          · rw [if_neg h2]
            exact collectGo_eq_specGo ops memo n rest _
              (by simp only [List.length_append, List.length_cons,
                    List.length_nil] at h2 ⊢; omega)
        · rw [if_pos (by simp [hstr] :
              ¬ (opAt ops (n - off)).name ∈ strOpNames)]
          rw [show resolveOperand memo (opAt ops (n - off)) =
                Except.ok (some (PyVal.str "unknown")) by
            simp [resolveOperand, hskip, hget, hstr]]
          dsimp only
          by_cases h2 : (vs ++ [PyVal.str "unknown"]).length = 2
          · rw [if_pos h2, specGo_of_full ops memo _ _ (le_of_eq h2.symm)]
          · rw [if_neg h2]
            exact collectGo_eq_specGo ops memo n rest _
              (by simp only [List.length_append, List.length_cons,
                    List.length_nil] at h2 ⊢; omega)

lemma collectValues_eq_specBackscan (ops : List Op) (memo : Memo) (n : Nat) :
    collectValues ops memo n = specBackscan ops memo n :=
  collectGo_eq_specGo ops memo n (List.range' 1 (n - 1)) [] (by simp)

/-- C2: at a STACK_GLOBAL whose backward scan (as the spec describes it)
recovers the two operand values `v0` then `v1`, the extractor emits exactly
the pair `(v1, v0)` — second collected as module, first collected as name —
into the globals set, leaving the memo table unchanged. -/
theorem c2_stack_global_reconstruction (ops : List Op) (memo : Memo)
    (g : GlobSet) (n : Nat) (v0 v1 : PyVal)
    (hname : (opAt ops n).name = "STACK_GLOBAL")
    (hscan : specBackscan ops memo n = Except.ok [v0, v1]) :
    processOp ops n memo g = Except.ok (memo, setAdd g [v1, v0]) := by
  have hcv : collectValues ops memo n = Except.ok [v0, v1] :=
    (collectValues_eq_specBackscan ops memo n).trans hscan
  simp [processOp, hname, hcv]

/-- C2 witness: `SHORT_BINUNICODE "collections"; MEMOIZE;
SHORT_BINUNICODE "OrderedDict"; STACK_GLOBAL` emits
`("collections", "OrderedDict")`. -/
theorem c2_witness :
    processOp [⟨"PROTO", PyVal.int 2⟩,
               ⟨"SHORT_BINUNICODE", PyVal.str "collections"⟩,
               ⟨"MEMOIZE", PyVal.pynone⟩,
               ⟨"SHORT_BINUNICODE", PyVal.str "OrderedDict"⟩,
               ⟨"STACK_GLOBAL", PyVal.pynone⟩] 4 [] [] =
      Except.ok ([], [[PyVal.str "collections", PyVal.str "OrderedDict"]]) := by
  have h := c2_stack_global_reconstruction
    [⟨"PROTO", PyVal.int 2⟩,
     ⟨"SHORT_BINUNICODE", PyVal.str "collections"⟩,
     ⟨"MEMOIZE", PyVal.pynone⟩,
     ⟨"SHORT_BINUNICODE", PyVal.str "OrderedDict"⟩,
     ⟨"STACK_GLOBAL", PyVal.pynone⟩] [] [] 4
    (PyVal.str "OrderedDict") (PyVal.str "collections") rfl rfl
  exact h.trans (by rfl)

lemma buildScanResult_fields (raw : List (List PyVal)) (err : Bool)
    (r : ScanResult) (h : buildScanResult raw err = Except.ok r) :
    r.scanned_files = 1 ∧ r.scan_err = err ∧
      r.infected_files = (if r.issues_count > 0 then 1 else 0) := by
  unfold buildScanResult at h
  cases hb : buildGo raw [] 0 with
  | error e => rw [hb] at h; exact absurd h (by simp)
  | ok p =>
    rw [hb] at h
    cases p with
    | mk gl issues =>
      cases h
      exact ⟨rfl, rfl, rfl⟩

/-- The stream whose single genops run yields `PROTO` then a `STACK_GLOBAL`
with no recoverable operands, then `STOP`. -/
def sgNoOperands : List Segment :=
  [⟨[⟨"PROTO", PyVal.int 2⟩, ⟨"STACK_GLOBAL", PyVal.pynone⟩,
     ⟨"STOP", PyVal.pynone⟩], Option.none⟩]

/-- C3 counterexample: a STACK_GLOBAL with fewer than two recoverable
operands makes the scan fail with a ValueError — a builtin exception, not the
GenOpsError (`Parse`) kind — and `scan_pickle_bytes` propagates it instead of
recovering it into a ScanResult. -/
theorem c3_counterexample :
    (scanPickleBytesS sgNoOperands true).1 = Except.error PyErr.valueError := by
  rfl

/-- C3 (amended): a STACK_GLOBAL for which the backward scan does not collect
exactly two values raises ValueError; `scan_pickle_bytes` propagates a
ValueError unrecovered, and recovers exactly the GenOpsError (`Parse`) kind
into an `Except.ok` ScanResult with `scan_err = true`. -/
theorem c3_value_error_propagates :
    (∀ (ops : List Op) (memo : Memo) (g : GlobSet) (n : Nat) (vs : List PyVal),
      (opAt ops n).name = "STACK_GLOBAL" →
      collectValues ops memo n = Except.ok vs → vs.length ≠ 2 →
      processOp ops n memo g = Except.error PyErr.valueError) ∧
    (∀ segs : List Segment,
      (listGlobalsS segs true).1 = Except.error PyErr.valueError →
      (scanPickleBytesS segs true).1 = Except.error PyErr.valueError) ∧
    (∀ (segs : List Segment) (msg : String)
      (gOpt : Option (List (List PyVal))) (r : ScanResult),
      (listGlobalsS segs true).1 = Except.error (PyErr.genOps msg gOpt) →
      (scanPickleBytesS segs true).1 = Except.ok r → r.scan_err = true) := by
  refine ⟨?_, ?_, ?_⟩
  · intro ops memo g n vs hname hcv hlen
    simp [processOp, hname, hcv, hlen]
  · intro segs hval
    rcases hp : listGlobalsS segs true with ⟨fst, snd⟩
    rw [hp] at hval
    simp only at hval
    subst hval
    simp [scanPickleBytesS, hp]
  · intro segs msg gOpt r hgen hok
    rcases hp : listGlobalsS segs true with ⟨fst, snd⟩
    rw [hp] at hgen
    simp only at hgen
    subst hgen
    cases gOpt with
    | none =>
      simp only [scanPickleBytesS, hp] at hok
      cases hok
      rfl
    | some g =>
      simp only [scanPickleBytesS, hp] at hok
      exact (buildScanResult_fields g true r hok).2.1

/-- C3 witness: the amended behaviours at concrete inputs — the ValueError
stream above, and the empty stream whose GenOpsError is recovered. -/
theorem c3_witness :
    (scanPickleBytesS sgNoOperands true).1 = Except.error PyErr.valueError ∧
    (⟨[], 0, 0, 0, true⟩ : ScanResult).scan_err = true :=
  ⟨c3_value_error_propagates.2.1 sgNoOperands (by rfl),
   c3_value_error_propagates.2.2 emptyStream
     "pickle exhausted before seeing STOP" Option.none ⟨[], 0, 0, 0, true⟩
     (by rfl) (by rfl)⟩

/-- C8 counterexample: the empty stream, scanned through
`scan_pickle_bytes`, yields `scan_err = true` and `scanned_files = 0`, not
`scan_err = false` and `scanned_files = 1` as the claim states. -/
theorem c8_counterexample :
    (scanPickleBytesS emptyStream true).1 = Except.ok ⟨[], 0, 0, 0, true⟩ ∧
    ¬ ((⟨[], 0, 0, 0, true⟩ : ScanResult).scan_err = false ∧
       (⟨[], 0, 0, 0, true⟩ : ScanResult).scanned_files = 1) := by
  exact ⟨rfl, by simp⟩

/-- C8 (amended): scanning the empty byte stream through
`scan_pickle_bytes` returns empty globals, `scan_err = true` and
`scanned_files = 0` (genops raises at once, which becomes a GenOpsError with
no recovered globals), consuming the whole stream. -/
theorem c8_empty_stream :
    scanPickleBytesS emptyStream true = (Except.ok ⟨[], 0, 0, 0, true⟩, []) := by
  rfl

/-- The memo-table update and the emitted tuple (if any) of one iteration of
the extractor loop, separated from the globals-set it is inserted into. -/
def processOpCore (ops : List Op) (n : Nat) (memo : Memo) :
    Except PyErr (Memo × Option (List PyVal)) :=
  if (opAt ops n).name = "MEMOIZE" ∧ n > 0 then
    Except.ok (memoSet memo (memoLen memo) (opAt ops (n - 1)).value,
      Option.none)
  else if (opAt ops n).name ∈ ["PUT", "BINPUT", "LONG_BINPUT"] ∧ n > 0 then
    Except.ok (memoSet memo (opAt ops n).value (opAt ops (n - 1)).value,
      Option.none)
  else if (opAt ops n).name ∈ ["GLOBAL", "INST"] then
    match (opAt ops n).value with
    | PyVal.str s => Except.ok (memo, some ((splitSpace1 s).map PyVal.str))
    | _ => Except.error PyErr.attributeError
  else if (opAt ops n).name = "STACK_GLOBAL" then
    match collectValues ops memo n with
    | Except.error e => Except.error e
    | Except.ok values =>
      if values.length = 2 then
        Except.ok (memo, some [values.getD 1 PyVal.pynone,
                               values.getD 0 PyVal.pynone])
      else Except.error PyErr.valueError
  else Except.ok (memo, Option.none)

lemma processOp_char (ops : List Op) (n : Nat) (memo : Memo) (g : GlobSet) :
    processOp ops n memo g =
      match processOpCore ops n memo with
      | Except.error e => Except.error e
      | Except.ok (m', Option.none) => Except.ok (m', g)
      | Except.ok (m', some x) => Except.ok (m', setAdd g x) := by
  unfold processOp processOpCore
  by_cases h1 : (opAt ops n).name = "MEMOIZE" ∧ n > 0
  · rw [if_pos h1, if_pos h1]
  · rw [if_neg h1, if_neg h1]
    by_cases h2 : (opAt ops n).name ∈ ["PUT", "BINPUT", "LONG_BINPUT"] ∧ n > 0
    · rw [if_pos h2, if_pos h2]
    · rw [if_neg h2, if_neg h2]
      by_cases h3 : (opAt ops n).name ∈ ["GLOBAL", "INST"]
      · rw [if_pos h3, if_pos h3]
        cases (opAt ops n).value <;> rfl
      · rw [if_neg h3, if_neg h3]
        by_cases h4 : (opAt ops n).name = "STACK_GLOBAL"
        · rw [if_pos h4, if_pos h4]
          cases collectValues ops memo n with
          | error e => rfl
          | ok values =>
            dsimp only
            by_cases h5 : values.length = 2
            · rw [if_pos h5, if_pos h5]
            · rw [if_neg h5, if_neg h5]
        · rw [if_neg h4, if_neg h4]

lemma mem_setAdd (g : GlobSet) (x y : List PyVal) :
    y ∈ setAdd g x ↔ y ∈ g ∨ y = x := by
  unfold setAdd
  by_cases h : x ∈ g
  · rw [if_pos h]
    constructor
    · exact Or.inl
    · rintro (hy | rfl)
      · exact hy
      · exact h
  · rw [if_neg h]
    simp [List.mem_append]

/-- Insert every element of `xs` into the set `g`, in order. -/
def setUnion (g : GlobSet) (xs : List (List PyVal)) : GlobSet :=
  xs.foldl setAdd g

lemma mem_setUnion (xs : List (List PyVal)) :
    ∀ (g : GlobSet) (y : List PyVal), y ∈ setUnion g xs ↔ y ∈ g ∨ y ∈ xs := by
  induction xs with
  | nil => intro g y; simp [setUnion]
  | cons a xs ih =>
    intro g y
    show y ∈ setUnion (setAdd g a) xs ↔ _
    rw [ih (setAdd g a) y, mem_setAdd, List.mem_cons, or_assoc]

lemma setAdd_setUnion (s t : GlobSet) (x : List PyVal) :
    setAdd (setUnion s t) x = setUnion s (setAdd t x) := by
  by_cases h : x ∈ t
  · rw [show setAdd t x = t from by rw [setAdd, if_pos h]]
    rw [setAdd, if_pos ((mem_setUnion t s x).mpr (Or.inr h))]
  · rw [show setAdd t x = t ++ [x] from by rw [setAdd, if_neg h]]
    show _ = (t ++ [x]).foldl setAdd s
    rw [List.foldl_append]
    rfl

lemma runOps_cons (ops : List Op) (n : Nat) (rest : List Nat) (memo : Memo)
    (g : GlobSet) :
    runOps ops (n :: rest) memo g =
      match processOp ops n memo g with
      | Except.error e => Except.error e
      | Except.ok (memo', g') => runOps ops rest memo' g' := rfl

lemma runOps_union (ops : List Op) :
    ∀ (idxs : List Nat) (memo : Memo) (s t : GlobSet),
      runOps ops idxs memo (setUnion s t) =
        Except.map (fun p => (p.1, setUnion s p.2)) (runOps ops idxs memo t)
  | [], memo, s, t => rfl
  | n :: rest, memo, s, t => by
    rw [runOps_cons ops n rest memo (setUnion s t), runOps_cons ops n rest memo t]
    rw [processOp_char ops n memo (setUnion s t), processOp_char ops n memo t]
    cases hc : processOpCore ops n memo with
    | error e => rfl
    | ok p =>
      rcases p with ⟨m', x⟩
      cases x with
      | none =>
        dsimp only
        exact runOps_union ops rest m' s t
      | some x =>
        dsimp only
        rw [setAdd_setUnion s t x]
        exact runOps_union ops rest m' s (setAdd t x)

/-- The two concatenated pickles of the C6 counterexample. `pkA` builds
`os.system` via STACK_GLOBAL, memoizing "os" at key 0 and "system" at key 1. -/
def pkA : List Op :=
  [⟨"PROTO", PyVal.int 2⟩, ⟨"SHORT_BINUNICODE", PyVal.str "os"⟩,
   ⟨"MEMOIZE", PyVal.pynone⟩, ⟨"SHORT_BINUNICODE", PyVal.str "system"⟩,
   ⟨"MEMOIZE", PyVal.pynone⟩, ⟨"STACK_GLOBAL", PyVal.pynone⟩,
   ⟨"STOP", PyVal.pynone⟩]

/-- `pkB` memoizes "posix" and then references memo key 0 from its
STACK_GLOBAL: alone it yields `posix.posix`, but after `pkA` the shared memo
table resolves key 0 to "os". -/
def pkB : List Op :=
  [⟨"PROTO", PyVal.int 2⟩, ⟨"SHORT_BINUNICODE", PyVal.str "posix"⟩,
   ⟨"MEMOIZE", PyVal.pynone⟩, ⟨"BINGET", PyVal.int 0⟩,
   ⟨"STACK_GLOBAL", PyVal.pynone⟩, ⟨"STOP", PyVal.pynone⟩]

/-- C6 counterexample: scanning the concatenation `pkA ++ pkB` in
multi-pickle mode yields `{(os, system), (posix, os)}`, which is not the
union of the globals of `pkA` alone (`{(os, system)}`) and of `pkB` alone
(`{(posix, posix)}`): the memo table is initialised once, not per pickle. -/
theorem c6_counterexample :
    (listGlobalsS [⟨pkA, Option.none⟩, ⟨pkB, Option.none⟩] true).1 =
      Except.ok [[PyVal.str "os", PyVal.str "system"],
                 [PyVal.str "posix", PyVal.str "os"]] ∧
    (listGlobalsS [⟨pkA, Option.none⟩] true).1 =
      Except.ok [[PyVal.str "os", PyVal.str "system"]] ∧
    (listGlobalsS [⟨pkB, Option.none⟩] true).1 =
      Except.ok [[PyVal.str "posix", PyVal.str "posix"]] ∧
    [PyVal.str "posix", PyVal.str "os"] ∉
      ([[PyVal.str "os", PyVal.str "system"]] : GlobSet) ∧
    [PyVal.str "posix", PyVal.str "os"] ∉
      ([[PyVal.str "posix", PyVal.str "posix"]] : GlobSet) :=
  ⟨rfl, rfl, rfl, by decide, by decide⟩

/-- C6 (amended): scanning the concatenation of two parse-clean pickles in
multi-pickle mode yields the union of the globals of the first (from a fresh
memo table) and the globals of the second extracted with the memo table
carried over from the first — the memo table is shared across concatenated
pickles, not fresh per pickle. -/
theorem c6_concatenation_with_carried_memo (A B : List Op) (mA mB : Memo)
    (gA gB : GlobSet)
    (hA : runAll A [] [] = Except.ok (mA, gA))
    (hB : runAll B mA [] = Except.ok (mB, gB)) :
    (listGlobalsS [⟨A, Option.none⟩, ⟨B, Option.none⟩] true).1 =
      Except.ok (setUnion gA gB) ∧
    (∀ x, x ∈ setUnion gA gB ↔ x ∈ gA ∨ x ∈ gB) := by
  have hBg : runAll B mA gA = Except.ok (mB, setUnion gA gB) := by
    have hu := runOps_union B (List.range B.length) mA gA []
    unfold runAll
    unfold runAll at hB
    calc runOps B (List.range B.length) mA gA
        = runOps B (List.range B.length) mA (setUnion gA []) := rfl
      _ = Except.map (fun p => (p.1, setUnion gA p.2))
            (runOps B (List.range B.length) mA []) := hu
      _ = Except.ok (mB, setUnion gA gB) := by rw [hB]; rfl
  constructor
  · show (listGlobalsAux true [⟨A, Option.none⟩, ⟨B, Option.none⟩] [] []).1 =
      Except.ok (setUnion gA gB)
    unfold listGlobalsAux
    rw [hA]
    dsimp only
    unfold listGlobalsAux
    rw [hBg]
    simp
  · exact fun x => mem_setUnion gB gA x

/-- C6 witness: the amended statement at the two concrete pickles, with the
memo table `pkA` leaves behind. -/
theorem c6_witness :
    (listGlobalsS [⟨pkA, Option.none⟩, ⟨pkB, Option.none⟩] true).1 =
      Except.ok (setUnion [[PyVal.str "os", PyVal.str "system"]]
                          [[PyVal.str "posix", PyVal.str "os"]]) :=
  (c6_concatenation_with_carried_memo pkA pkB
    [(PyVal.int 0, PyVal.str "os"), (PyVal.int 1, PyVal.str "system")]
    [(PyVal.int 0, PyVal.str "os"), (PyVal.int 1, PyVal.str "system"),
     (PyVal.int 2, PyVal.str "posix")]
    [[PyVal.str "os", PyVal.str "system"]]
    [[PyVal.str "posix", PyVal.str "os"]]
    (by rfl) (by rfl)).1

/-- The number of Dangerous entries in a globals list. -/
def dangerousCount (l : List Global) : Nat :=
  (l.filter (fun g => g.safety = SafetyLevel.Dangerous)).length

lemma classifyImport_issue (m n : PyVal) (lvl : SafetyLevel) (iss : Bool)
    (h : classifyImport m n = Except.ok (lvl, iss)) :
    iss = true ↔ lvl = SafetyLevel.Dangerous := by
  unfold classifyImport classifySafeStep at h
  dsimp only at h
  repeat' split at h
  all_goals first
    | (cases h; simp)
    | (exact absurd h (by simp))

lemma dangerousCount_append (l1 l2 : List Global) :
    dangerousCount (l1 ++ l2) = dangerousCount l1 + dangerousCount l2 := by
  simp [dangerousCount, List.filter_append]

lemma buildGo_count :
    ∀ (raw : List (List PyVal)) (gl : List Global) (issues : Nat)
      (gl' : List Global) (issues' : Nat),
      buildGo raw gl issues = Except.ok (gl', issues') →
      dangerousCount gl = issues →
      dangerousCount gl' = issues'
  | [], gl, issues, gl', issues', h, hdc => by
    cases h
    exact hdc
  | rg :: rest, gl, issues, gl', issues', h, hdc => by
    unfold buildGo at h
    cases hm : pyIndex rg 0 with
    | error e => rw [hm] at h; exact absurd h (by simp)
    | ok m =>
      rw [hm] at h
      dsimp only at h
      cases hn : pyIndex rg 1 with
      | error e => rw [hn] at h; exact absurd h (by simp)
      | ok n =>
        rw [hn] at h
        dsimp only at h
        cases hc : classifyImport m n with
        | error e => rw [hc] at h; exact absurd h (by simp)
        | ok p =>
          rw [hc] at h
          rcases p with ⟨lvl, iss⟩
          dsimp only at h
          refine buildGo_count rest _ _ _ _ h ?_
          rw [dangerousCount_append]
          have hiff := classifyImport_issue m n lvl iss hc
          rw [hdc]
          cases iss with
          | false =>
            have hnd : ¬ lvl = SafetyLevel.Dangerous := by
              intro hd; exact absurd (hiff.mpr hd) (by simp)
            simp [dangerousCount, hnd]
          | true =>
            have hd : lvl = SafetyLevel.Dangerous := hiff.mp rfl
            simp [dangerousCount, hd]

lemma buildScanResult_count (raw : List (List PyVal)) (err : Bool)
    (r : ScanResult) (h : buildScanResult raw err = Except.ok r) :
    dangerousCount r.globals = r.issues_count := by
  unfold buildScanResult at h
  cases hb : buildGo raw [] 0 with
  | error e => rw [hb] at h; exact absurd h (by simp)
  | ok p =>
    rw [hb] at h
    rcases p with ⟨gl, issues⟩
    cases h
    exact buildGo_count raw [] 0 gl issues hb (by rfl)

lemma scanPickleBytes_inv (segs : List Segment) (multi : Bool)
    (r : ScanResult) (rest : List Segment)
    (h : scanPickleBytesS segs multi = (Except.ok r, rest)) :
    r.infected_files ≤ r.scanned_files ∧
      dangerousCount r.globals = r.issues_count := by
  unfold scanPickleBytesS at h
  rcases hp : listGlobalsS segs multi with ⟨res, resRest⟩
  rw [hp] at h
  have build_case : ∀ (raw : List (List PyVal)) (err : Bool),
      buildScanResult raw err = Except.ok r →
      r.infected_files ≤ r.scanned_files ∧
        dangerousCount r.globals = r.issues_count := by
    intro raw err hb
    obtain ⟨h1, _, h3⟩ := buildScanResult_fields raw err r hb
    refine ⟨?_, buildScanResult_count raw err r hb⟩
    rw [h1, h3]
    split <;> omega
  cases res with
  | ok g =>
    exact build_case g false (by
      have := congrArg Prod.fst h
      exact this)
  | error e =>
    cases e with
    | genOps msg gOpt =>
      cases gOpt with
      | none =>
        have : r = ⟨[], 0, 0, 0, true⟩ := by
          have := congrArg Prod.fst h
          simp only at this
          exact (Except.ok.injEq _ _).mp this.symm
        rw [this]
        exact ⟨Nat.le_refl 0, rfl⟩
      | some g =>
        exact build_case g true (congrArg Prod.fst h)
    | valueError => exact absurd (congrArg Prod.fst h) (by simp)
    | keyError => exact absurd (congrArg Prod.fst h) (by simp)
    | typeError => exact absurd (congrArg Prod.fst h) (by simp)
    | attributeError => exact absurd (congrArg Prod.fst h) (by simp)
    | indexError => exact absurd (congrArg Prod.fst h) (by simp)

/-- The scan results the pickle-scanning entry point can produce, closed
under merge: the empty `ScanResult([])` initialiser, any result returned by
`scan_pickle_bytes`, and any merge of two produced results. -/
inductive ProducedSR : ScanResult → Prop
  | empty : ProducedSR emptyScanResult
  | scan (segs : List Segment) (multi : Bool) (r : ScanResult)
      (rest : List Segment)
      (h : scanPickleBytesS segs multi = (Except.ok r, rest)) : ProducedSR r
  | merge (a b : ScanResult) (ha : ProducedSR a) (hb : ProducedSR b) :
      ProducedSR (a.merge b)

/-- The two legacy frames of the C4 counterexample: each a single pickle
yielding the Dangerous global `os.system`. -/
def twoDangerFrames : List Segment :=
  [⟨[⟨"GLOBAL", PyVal.str "os system"⟩, ⟨"STOP", PyVal.pynone⟩], Option.none⟩,
   ⟨[⟨"GLOBAL", PyVal.str "os system"⟩, ⟨"STOP", PyVal.pynone⟩], Option.none⟩]

set_option maxRecDepth 100000 in
/-- C4 counterexample: the legacy tensor-archive path on a stream of two
dangerous frames returns `infected_files = 2` but `scanned_files = 1` (the
loop merges five single-pickle scans and then overwrites `scanned_files`
with 1), so `infected_files ≤ scanned_files` fails for this scan result. -/
theorem c4_counterexample :
    scanPytorchLegacy twoDangerFrames = Except.ok
      ⟨[⟨PyVal.str "os", PyVal.str "system", SafetyLevel.Dangerous⟩,
        ⟨PyVal.str "os", PyVal.str "system", SafetyLevel.Dangerous⟩],
       1, 2, 2, false⟩ ∧
    ¬ ((⟨[⟨PyVal.str "os", PyVal.str "system", SafetyLevel.Dangerous⟩,
          ⟨PyVal.str "os", PyVal.str "system", SafetyLevel.Dangerous⟩],
         1, 2, 2, false⟩ : ScanResult).infected_files ≤
        (⟨[⟨PyVal.str "os", PyVal.str "system", SafetyLevel.Dangerous⟩,
           ⟨PyVal.str "os", PyVal.str "system", SafetyLevel.Dangerous⟩],
          1, 2, 2, false⟩ : ScanResult).scanned_files) :=
  ⟨by decide, by decide⟩

/-- C4 (amended): every scan result produced by `scan_pickle_bytes` — or the
empty initialiser — and closed under merge satisfies
`infected_files ≤ scanned_files`; the legacy tensor-archive path, which
overwrites `scanned_files` to 1 after merging, can violate it. -/
theorem c4_infected_le_scanned (r : ScanResult) (h : ProducedSR r) :
    r.infected_files ≤ r.scanned_files := by
  induction h with
  | empty => exact Nat.le_refl 0
  | scan segs multi r rest hs => exact (scanPickleBytes_inv segs multi r rest hs).1
  | merge a b ha hb iha ihb =>
    show a.infected_files + b.infected_files ≤
      a.scanned_files + b.scanned_files
    omega

/-- C4 witness: the invariant at a concrete produced result (the scan of the
first dangerous frame alone). -/
theorem c4_witness :
    (⟨[⟨PyVal.str "os", PyVal.str "system", SafetyLevel.Dangerous⟩],
      1, 1, 1, false⟩ : ScanResult).infected_files ≤
      (⟨[⟨PyVal.str "os", PyVal.str "system", SafetyLevel.Dangerous⟩],
        1, 1, 1, false⟩ : ScanResult).scanned_files :=
  c4_infected_le_scanned _
    (ProducedSR.scan
      [⟨[⟨"GLOBAL", PyVal.str "os system"⟩, ⟨"STOP", PyVal.pynone⟩],
        Option.none⟩] true _ [] (by rfl))

/-- C5: in every scan result produced by the pickle-scanning entry point (and
under any sequence of merges) the number of Dangerous globals equals
`issues_count`, and merge preserves this equality. -/
theorem c5_dangerous_count_eq_issues :
    (∀ r : ScanResult, ProducedSR r →
      dangerousCount r.globals = r.issues_count) ∧
    (∀ a b : ScanResult, dangerousCount a.globals = a.issues_count →
      dangerousCount b.globals = b.issues_count →
      dangerousCount (a.merge b).globals = (a.merge b).issues_count) := by
  constructor
  · intro r h
    induction h with
    | empty => rfl
    | scan segs multi r rest hs =>
      exact (scanPickleBytes_inv segs multi r rest hs).2
    | merge a b ha hb iha ihb =>
      show dangerousCount (a.globals ++ b.globals) = _
      rw [dangerousCount_append, iha, ihb]
      rfl
  · intro a b hda hdb
    show dangerousCount (a.globals ++ b.globals) = _
    rw [dangerousCount_append, hda, hdb]
    rfl

/-- C5 witness: both parts at concrete results — a scan of one dangerous
frame, and a merge of that result with itself. -/
theorem c5_witness :
    dangerousCount
      (⟨[⟨PyVal.str "posix", PyVal.str "abort", SafetyLevel.Dangerous⟩],
        1, 1, 1, false⟩ : ScanResult).globals =
      (⟨[⟨PyVal.str "posix", PyVal.str "abort", SafetyLevel.Dangerous⟩],
        1, 1, 1, false⟩ : ScanResult).issues_count ∧
    dangerousCount
      ((⟨[⟨PyVal.str "posix", PyVal.str "abort", SafetyLevel.Dangerous⟩],
         1, 1, 1, false⟩ : ScanResult).merge
       ⟨[⟨PyVal.str "posix", PyVal.str "abort", SafetyLevel.Dangerous⟩],
        1, 1, 1, false⟩).globals =
      ((⟨[⟨PyVal.str "posix", PyVal.str "abort", SafetyLevel.Dangerous⟩],
         1, 1, 1, false⟩ : ScanResult).merge
       ⟨[⟨PyVal.str "posix", PyVal.str "abort", SafetyLevel.Dangerous⟩],
        1, 1, 1, false⟩).issues_count :=
  ⟨c5_dangerous_count_eq_issues.1 _
    (ProducedSR.scan
      [⟨[⟨"GLOBAL", PyVal.str "posix abort"⟩, ⟨"STOP", PyVal.pynone⟩],
        Option.none⟩] true _ [] (by rfl)),
   c5_dangerous_count_eq_issues.2 _ _ (by rfl) (by rfl)⟩

lemma legacyLoop_step (k : Nat) (acc : ScanResult) (segs s' : List Segment)
    (r : ScanResult) (h : scanPickleBytesS segs false = (Except.ok r, s')) :
    legacyLoop (k + 1) acc segs = legacyLoop k (acc.merge r) s' := by
  show (match scanPickleBytesS segs false with
        | (Except.error e, _) => Except.error e
        | (Except.ok r, rest) => legacyLoop k (acc.merge r) rest) =
    legacyLoop k (acc.merge r) s'
  rw [h]

/-- C7: the legacy tensor-archive branch scans up to five single-pickle
frames (multi-pickle mode disabled) from successive stream positions, merges
the five results into `ScanResult([])` in order, and always returns
`scanned_files = 1`, whatever the five frames held. -/
theorem c7_legacy_five_frames :
    (∀ (segs : List Segment) (r : ScanResult),
      scanPytorchLegacy segs = Except.ok r → r.scanned_files = 1) ∧
    (∀ (segs s1 s2 s3 s4 s5 : List Segment) (r1 r2 r3 r4 r5 : ScanResult),
      scanPickleBytesS segs false = (Except.ok r1, s1) →
      scanPickleBytesS s1 false = (Except.ok r2, s2) →
      scanPickleBytesS s2 false = (Except.ok r3, s3) →
      scanPickleBytesS s3 false = (Except.ok r4, s4) →
      scanPickleBytesS s4 false = (Except.ok r5, s5) →
      scanPytorchLegacy segs = Except.ok
        { ((((emptyScanResult.merge r1).merge r2).merge r3).merge r4).merge r5
            with scanned_files := 1 }) := by
  constructor
  · intro segs r h
    unfold scanPytorchLegacy at h
    cases hl : legacyLoop 5 emptyScanResult segs with
    | error e => rw [hl] at h; exact absurd h (by simp)
    | ok r' =>
      rw [hl] at h
      cases h
      rfl
  · intro segs s1 s2 s3 s4 s5 r1 r2 r3 r4 r5 h1 h2 h3 h4 h5
    have e1 := legacyLoop_step 4 emptyScanResult segs s1 r1 h1
    have e2 := legacyLoop_step 3 (emptyScanResult.merge r1) s1 s2 r2 h2
    have e3 := legacyLoop_step 2 ((emptyScanResult.merge r1).merge r2) s2 s3 r3 h3
    have e4 := legacyLoop_step 1 (((emptyScanResult.merge r1).merge r2).merge r3)
      s3 s4 r4 h4
    have e5 := legacyLoop_step 0
      ((((emptyScanResult.merge r1).merge r2).merge r3).merge r4) s4 s5 r5 h5
    have hloop : legacyLoop 5 emptyScanResult segs = Except.ok
        (((((emptyScanResult.merge r1).merge r2).merge r3).merge r4).merge r5) :=
      e1.trans (e2.trans (e3.trans (e4.trans (e5.trans rfl))))
    unfold scanPytorchLegacy
    rw [hloop]

/-- A one-frame legacy stream: a single pickle importing
`collections.OrderedDict`. -/
def innocFrame : List Segment :=
  [⟨[⟨"GLOBAL", PyVal.str "collections OrderedDict"⟩,
     ⟨"STOP", PyVal.pynone⟩], Option.none⟩]

set_option maxRecDepth 100000 in
/-- C7 witness: the five-frame loop at a concrete one-frame stream (the four
further scans read an exhausted stream and contribute empty results), and the
`scanned_files = 1` consequence at its result. -/
theorem c7_witness :
    (⟨[⟨PyVal.str "collections", PyVal.str "OrderedDict",
        SafetyLevel.Innocuous⟩], 1, 0, 0, false⟩ : ScanResult).scanned_files
      = 1 ∧
    scanPytorchLegacy innocFrame = Except.ok
      ⟨[⟨PyVal.str "collections", PyVal.str "OrderedDict",
         SafetyLevel.Innocuous⟩], 1, 0, 0, false⟩ := by
  have h2 := c7_legacy_five_frames.2 innocFrame [] [] [] [] []
    ⟨[⟨PyVal.str "collections", PyVal.str "OrderedDict",
       SafetyLevel.Innocuous⟩], 1, 0, 0, false⟩
    ⟨[], 1, 0, 0, false⟩ ⟨[], 1, 0, 0, false⟩ ⟨[], 1, 0, 0, false⟩
    ⟨[], 1, 0, 0, false⟩ (by rfl) (by rfl) (by rfl) (by rfl) (by rfl)
  have hres := h2.trans (by rfl)
  exact ⟨c7_legacy_five_frames.1 innocFrame _ hres, hres⟩

/-- C9: merge appends the argument's globals after the receiver's, sums the
three counters, takes the disjunction of the error flags, and is associative. -/
theorem c9_merge_componentwise_and_assoc (a b c : ScanResult) :
    (a.merge b).globals = a.globals ++ b.globals ∧
    (a.merge b).scanned_files = a.scanned_files + b.scanned_files ∧
    (a.merge b).issues_count = a.issues_count + b.issues_count ∧
    (a.merge b).infected_files = a.infected_files + b.infected_files ∧
    (a.merge b).scan_err = (a.scan_err || b.scan_err) ∧
    (a.merge b).merge c = a.merge (b.merge c) := by
  refine ⟨rfl, rfl, rfl, rfl, rfl, ?_⟩
  simp [ScanResult.merge, List.append_assoc, Nat.add_assoc, Bool.or_assoc]

/-- A heap of ScanResult objects, with `a.merge(sr)` for the objects at
positions `i` (the receiver, updated in place) and `j` (the argument). This
captures the in-place mutation of the Python method. -/
def heapMergeAt (h : List ScanResult) (i j : Nat) : List ScanResult :=
  match h.get? i, h.get? j with
  | some a, some b => h.set i (a.merge b)
  | _, _ => h

/-- C10: `a.merge(sr)` writes only to its receiver: when the argument is a
different object, it — and every other object on the heap — is unchanged in
every field after the call. -/
theorem c10_merge_mutates_only_receiver (h : List ScanResult) (i j : Nat)
    (hij : i ≠ j) :
    (heapMergeAt h i j).get? j = h.get? j ∧
    ∀ k, k ≠ i → (heapMergeAt h i j).get? k = h.get? k := by
  have frame : ∀ k, k ≠ i → (heapMergeAt h i j).get? k = h.get? k := by
    intro k hk
    unfold heapMergeAt
    cases h.get? i <;> cases h.get? j <;>
      simp [List.get?_eq_getElem?, List.getElem?_set_ne (fun e => hk e.symm)]
  exact ⟨frame j (fun e => hij e.symm), frame⟩

/-- C10 witness: a two-object heap, merging object 0 with object 1. -/
theorem c10_witness :
    (heapMergeAt [⟨[], 1, 0, 0, false⟩, ⟨[], 2, 1, 1, true⟩] 0 1).get? 1 =
      some ⟨[], 2, 1, 1, true⟩ := by
  rw [(c10_merge_mutates_only_receiver
        [⟨[], 1, 0, 0, false⟩, ⟨[], 2, 1, 1, true⟩] 0 1 (by decide)).1]
  rfl

end Picklescan
